import Mathlib

/-!
Verification of the jotdown terminal UI (src/jotdown/ui.py): the
constrained editor keystroke loop (`Editor.input`), the menu selection
state machine (`Menu.select`) and the loading spinner (`Animation.load`),
shallowly embedded as pure Lean functions over explicit session state.
-/

namespace Jotdown

/-- Python `chr` on a key code, as used by the editor loop. -/
def chr (k : Nat) : Char := Char.ofNat k

/-- Python `str.isspace()` on the one-character string `chr(k)`:
true exactly for the Unicode whitespace code points Python recognises
(categories Zs/Zl/Zp and bidirectional classes WS, B, S). -/
def pyIsSpace (k : Nat) : Bool :=
  decide ((9 ≤ k ∧ k ≤ 13) ∨ (28 ≤ k ∧ k ≤ 32) ∨ k = 133 ∨ k = 160 ∨
    k = 5760 ∨ (8192 ≤ k ∧ k ≤ 8202) ∨ k = 8232 ∨ k = 8233 ∨
    k = 8239 ∨ k = 8287 ∨ k = 12288)

/-- A write to the message pane (`win_msg.addstr`) during one loop
iteration of `Editor.input`, abstracted by which status line it is. -/
inductive Msg where
  /-- The red status line giving how many more words to write. -/
  | moreWords (n : Int)
  /-- The dim hint giving how many more ESC presses exit. -/
  | pressEsc (n : Int)
  /-- The green affirmative line: target words reached, exit by ESC. -/
  | targetReached
deriving DecidableEq

/-- The live mutable state of one `Editor.input` session: the accumulated
`text` buffer, `words_count` and `escape_counter` (`target_words` is fixed
for the whole session and passed separately). -/
structure EditorSession where
  text : List Char
  words_count : Nat
  escape_counter : Int
deriving DecidableEq

/-- Outcome of processing one keystroke: either the loop continues with an
updated session (together with the message-pane writes of the iteration,
in order), or the `break` on line 146 fired and the session is over. -/
inductive StepOut where
  | cont (s : EditorSession) (msgs : List Msg)
  | done (s : EditorSession)
deriving DecidableEq

/-- Session state carried by a step outcome. -/
def StepOut.state : StepOut → EditorSession
  | .cont s _ => s
  | .done s => s

/-- Whether the step broke out of the loop. -/
def StepOut.isDone : StepOut → Bool
  | .cont _ _ => false
  | .done _ => true

/-- Message-pane writes of the iteration; a breaking iteration clears the
pane and writes nothing before `break`. -/
def StepOut.msgs : StepOut → List Msg
  | .cont _ m => m
  | .done _ => []

/-- Value of `words_count` right after the space-test increment
(lines 141-142), before anything else in the iteration. -/
def wcAfterSpace (s : EditorSession) (k : Nat) : Nat :=
  if chr k = ' ' then s.words_count + 1 else s.words_count

/-- The tail of the loop body shared by the two branches of the
`if key == 27` test (lines 152-160): the `words_count > target_words`
status line, the append to `text` unless the key is delete (127), and the
second increment for whitespace characters. -/
def stepRest (target : Nat) (s : EditorSession) (k : Nat)
    (msgs : List Msg) : StepOut :=
  let msgs := if target < s.words_count then msgs ++ [Msg.targetReached] else msgs
  let text := if k = 127 then s.text else s.text ++ [chr k]
  let wc := if pyIsSpace k then s.words_count + 1 else s.words_count
  .cont { text := text, words_count := wc, escape_counter := s.escape_counter } msgs

/-- One iteration of the `while True` loop of `Editor.input`
(ui.py lines 137-167) on keystroke `k`. -/
def step (target : Nat) (s : EditorSession) (k : Nat) : StepOut :=
  let wc := wcAfterSpace s k
  if k = 27 then
    let ec := s.escape_counter - 1
    if target ≤ wc ∨ ec = 0 then
      .done { text := s.text, words_count := wc, escape_counter := ec }
    else
      stepRest target { text := s.text, words_count := wc, escape_counter := ec } k
        [Msg.moreWords ((target : Int) - (wc : Int)), Msg.pressEsc ec]
  else
    stepRest target { text := s.text, words_count := wc, escape_counter := 3 } k []

/-- Run the loop over a list of keystrokes: stops early (flag `true`) when
an iteration breaks; flag `false` means the keys ran out with the loop
still blocked on the next read. -/
def runKeys (target : Nat) : EditorSession → List Nat → EditorSession × Bool
  | s, [] => (s, false)
  | s, k :: ks =>
    match step target s k with
    | .cont s' _ => runKeys target s' ks
    | .done s' => (s', true)

/-- The state at the top of `Editor.input`'s loop: empty buffer,
`words_count = 0`, `escape_counter = 3`. -/
def initSession : EditorSession :=
  { text := [], words_count := 0, escape_counter := 3 }

/-- The dictionary returned by `Editor.input`. -/
structure EditorResult where
  content : List Char
  words_count : Nat
deriving DecidableEq

namespace Editor

/-- Function `Editor.input` on a keystroke script: the returned result when the
session terminates within the script, `none` if the loop would still be
blocking on a further read. -/
def input (target : Nat) (keys : List Nat) : Option EditorResult :=
  match runKeys target initSession keys with
  | (s, true) => some { content := s.text, words_count := s.words_count }
  | (_, false) => none

/-- The glyph `Editor.print` echoes to the text pane for key `k`:
delete (127) and escape (27) are swallowed, every other code is decoded
and written. -/
def echoed (k : Nat) : Option Char :=
  if k = 127 ∨ k = 27 then none else some (chr k)

end Editor

namespace Menu

/-- The `options` dict of `Menu.select`: 0 maps to note, 1 to chat. -/
def options (p : Int) : String :=
  if p = 0 then "note" else "chat"

/-- Position update of one iteration of `Menu.select`'s loop on key `k`:
RIGHT (261) is `(position + 1) % 2`, LEFT (260) is `abs((position - 1) % 2)`,
every other key leaves the position unchanged (ENTER is handled by the
caller before this update applies). -/
def navStep (position : Int) (k : Nat) : Int :=
  if k = 261 then (position + 1) % 2
  else if k = 260 then |(position - 1) % 2|
  else position

/-- Loop of `Menu.select` over a keystroke script starting at `position`:
ENTER (10) breaks and the current position is looked up in `options`;
`none` if the script ends with the loop still reading. -/
def select (position : Int) : List Nat → Option String
  | [] => none
  | k :: ks =>
    if k = 10 then some (options position)
    else select (navStep position k) ks

end Menu

namespace Animation

/-- The spinner glyph cycle of `Animation.load`. -/
def frames : List String := ["⣾", "⣷", "⣯", "⣟", "⡿", "⢿", "⣻", "⣽"]

/-- Number of frame iterations `Animation.load(screen, rounds, ...)`
performs: the loop is `for i in range(n * 2)` with `n = len(frames)`;
the `rounds` parameter is accepted but never read. -/
def loadIterations (rounds : Nat) : Nat := frames.length * 2

/-- The line written one row below the captured cursor row on iteration
`i`: a carriage return, the cycled frame glyph, then a space and the word saving. -/
def loadLine (i : Nat) : String :=
  "\r" ++ frames.getD (i % frames.length) "" ++ " saving"

end Animation

/-! ### Facts about key decoding -/

/-- The numeric value of a decoded key: the code itself when it is a valid
scalar value, `0` (the value of `'\0'`) otherwise. -/
theorem toNat_chr (k : Nat) : (chr k).toNat = if k.isValidChar then k else 0 := by
  unfold chr Char.ofNat
  split <;> rename_i h <;> rfl

/-- Only the code 32 decodes to the space character. -/
theorem chr_eq_space_iff (k : Nat) : chr k = ' ' ↔ k = 32 := by
  constructor
  · intro h
    have h' := congrArg Char.toNat h
    rw [toNat_chr] at h'
    have hsp : (' ' : Char).toNat = 32 := rfl
    rw [hsp] at h'
    split at h' <;> omega
  · rintro rfl
    rfl

/-! ### Characterizations of one editor loop iteration -/

theorem chr27_ne_space : chr 27 ≠ ' ' := by
  rw [Ne, chr_eq_space_iff]
  omega

theorem wcAfterSpace_esc (s : EditorSession) : wcAfterSpace s 27 = s.words_count := by
  simp [wcAfterSpace, chr27_ne_space]

/-- An escape keystroke for which the line-145 condition holds breaks the
loop: the decrement has happened, nothing was appended or counted. -/
theorem step_esc_done (target : Nat) (s : EditorSession)
    (h : target ≤ s.words_count ∨ s.escape_counter - 1 = 0) :
    step target s 27 = .done
      { text := s.text, words_count := s.words_count,
        escape_counter := s.escape_counter - 1 } := by
  simp [step, wcAfterSpace_esc, h]

/-- A non-breaking escape keystroke: the counter is decremented, the two
escape-branch status lines are written, `chr(27)` is appended to the
buffer, and `words_count` is unchanged. -/
theorem step_esc_cont (target : Nat) (s : EditorSession)
    (h1 : s.words_count < target) (h2 : s.escape_counter - 1 ≠ 0) :
    step target s 27 = .cont
      { text := s.text ++ [chr 27], words_count := s.words_count,
        escape_counter := s.escape_counter - 1 }
      [Msg.moreWords ((target : Int) - (s.words_count : Int)),
       Msg.pressEsc (s.escape_counter - 1)] := by
  have hne : ¬(target ≤ s.words_count ∨ s.escape_counter - 1 = 0) := by
    push_neg
    exact ⟨h1, h2⟩
  have h127 : (27 : Nat) ≠ 127 := by omega
  have hsp : pyIsSpace 27 = false := by decide
  have htr : ¬ target < s.words_count := by omega
  simp [step, wcAfterSpace_esc, hne, stepRest, h127, hsp, htr]

/-- Any non-escape keystroke continues the loop: the counter resets to 3,
the affirmative line is written exactly when `words_count > target_words`
held after the space increment, the character is appended unless it is
delete (127), and whitespace gets the second increment. -/
theorem step_nonesc (target : Nat) (s : EditorSession) (k : Nat) (h : k ≠ 27) :
    step target s k = .cont
      { text := if k = 127 then s.text else s.text ++ [chr k],
        words_count := if pyIsSpace k then wcAfterSpace s k + 1 else wcAfterSpace s k,
        escape_counter := 3 }
      (if target < wcAfterSpace s k then [Msg.targetReached] else []) := by
  simp only [step, if_neg h, stepRest]
  split <;> split <;> simp

/-- Buffer change of a continuing iteration: delete leaves the buffer
alone, every other key appends its decoded character. -/
theorem step_cont_text (target : Nat) (s : EditorSession) (k : Nat)
    (s' : EditorSession) (m : List Msg) (h : step target s k = .cont s' m) :
    s'.text = if k = 127 then s.text else s.text ++ [chr k] := by
  by_cases hk : k = 27
  · subst hk
    by_cases hc : target ≤ s.words_count ∨ s.escape_counter - 1 = 0
    · rw [step_esc_done _ _ hc] at h
      cases h
    · push_neg at hc
      rw [step_esc_cont _ _ hc.1 hc.2] at h
      injection h with h1 h2
      rw [← h1]
      simp
  · rw [step_nonesc _ _ _ hk] at h
    injection h with h1 h2
    rw [← h1]

/-- A breaking iteration leaves the buffer untouched. -/
theorem step_done_text (target : Nat) (s : EditorSession) (k : Nat)
    (s' : EditorSession) (h : step target s k = .done s') : s'.text = s.text := by
  by_cases hk : k = 27
  · subst hk
    by_cases hc : target ≤ s.words_count ∨ s.escape_counter - 1 = 0
    · rw [step_esc_done _ _ hc] at h
      injection h with h1
      rw [← h1]
    · push_neg at hc
      rw [step_esc_cont _ _ hc.1 hc.2] at h
      cases h
  · rw [step_nonesc _ _ _ hk] at h
    cases h

/-! ### The claims -/

/-- Claim C1: the editor session terminates if and only if, at the moment an
escape keystroke (code 27) is processed, `words_count >= target_words` or
the just-decremented `escape_counter` equals 0; no other keystroke ever
ends the session. -/
theorem editor_terminates_iff (target : Nat) (s : EditorSession) (k : Nat) :
    (step target s k).isDone = true ↔
      k = 27 ∧ (target ≤ s.words_count ∨ s.escape_counter - 1 = 0) := by
  by_cases hk : k = 27
  · subst hk
    by_cases hc : target ≤ s.words_count ∨ s.escape_counter - 1 = 0
    · rw [step_esc_done _ _ hc]
      simp [StepOut.isDone, hc]
    · push_neg at hc
      rw [step_esc_cont _ _ hc.1 hc.2]
      simp only [StepOut.isDone, Bool.false_eq_true, false_iff, not_and]
      intro _
      push_neg
      exact hc
  · rw [step_nonesc _ _ _ hk]
    simp [StepOut.isDone, hk]

/-- Witness for C1 at a concrete input: with the target already met,
a first escape press terminates immediately. -/
theorem editor_terminates_iff_witness :
    (step 20 { text := [], words_count := 20, escape_counter := 3 } 27).isDone = true :=
  (editor_terminates_iff 20 _ 27).mpr ⟨rfl, Or.inl (by norm_num)⟩

/-- Claim C2: in one processed keystroke, a space (32) increments `words_count`
by exactly 2, a tab (9) or newline (10) by exactly 1, and any
non-whitespace, non-delete, non-escape key by 0; none of these keys can
terminate the iteration. -/
theorem words_count_increment_per_key (target : Nat) (s : EditorSession) :
    ((step target s 32).isDone = false
      ∧ (step target s 32).state.words_count = s.words_count + 2)
  ∧ ((step target s 9).isDone = false
      ∧ (step target s 9).state.words_count = s.words_count + 1)
  ∧ ((step target s 10).isDone = false
      ∧ (step target s 10).state.words_count = s.words_count + 1)
  ∧ (∀ k : Nat, pyIsSpace k = false → k ≠ 127 → k ≠ 27 →
      (step target s k).isDone = false
      ∧ (step target s k).state.words_count = s.words_count) := by
  refine ⟨?_, ?_, ?_, ?_⟩
  · rw [step_nonesc _ _ 32 (by omega)]
    refine ⟨rfl, ?_⟩
    simp [StepOut.state, wcAfterSpace, show chr 32 = ' ' from rfl,
      show pyIsSpace 32 = true by decide]
  · rw [step_nonesc _ _ 9 (by omega)]
    refine ⟨rfl, ?_⟩
    simp [StepOut.state, wcAfterSpace, show chr 9 ≠ ' ' by decide,
      show pyIsSpace 9 = true by decide]
  · rw [step_nonesc _ _ 10 (by omega)]
    refine ⟨rfl, ?_⟩
    simp [StepOut.state, wcAfterSpace, show chr 10 ≠ ' ' by decide,
      show pyIsSpace 10 = true by decide]
  · intro k hsp h127 h27
    rw [step_nonesc _ _ _ h27]
    have hk32 : k ≠ 32 := by
      intro h
      subst h
      exact absurd hsp (by decide)
    have hchr : chr k ≠ ' ' := by
      rw [Ne, chr_eq_space_iff]
      exact hk32
    refine ⟨rfl, ?_⟩
    simp [StepOut.state, wcAfterSpace, hchr, hsp]

/-- Witness for C2 at concrete inputs: a space adds 2, the letter `A`
(code 65) adds 0. -/
theorem words_count_increment_per_key_witness :
    (step 20 initSession 32).state.words_count = initSession.words_count + 2
    ∧ (step 20 initSession 65).state.words_count = initSession.words_count :=
  ⟨(words_count_increment_per_key 20 initSession).1.2,
   ((words_count_increment_per_key 20 initSession).2.2.2 65
      (by decide) (by decide) (by decide)).2⟩

/-- Claim C3: on key sequences with no escape code, `escape_counter` stays at 3
after every keystroke (and the session never ends); `n < 3` consecutive
escapes with the target not yet met decrement it by exactly `n`; and any
non-escape keystroke resets it to 3. -/
theorem escape_counter_dynamics :
    (∀ (target : Nat) (s : EditorSession) (keys : List Nat),
        27 ∉ keys → s.escape_counter = 3 →
        (runKeys target s keys).2 = false
        ∧ (runKeys target s keys).1.escape_counter = 3)
  ∧ (∀ (target : Nat) (s : EditorSession) (n : Nat),
        n < 3 → s.escape_counter = 3 → s.words_count < target →
        (runKeys target s (List.replicate n 27)).2 = false
        ∧ (runKeys target s (List.replicate n 27)).1.escape_counter = 3 - (n : Int))
  ∧ (∀ (target : Nat) (s : EditorSession) (k : Nat) (s' : EditorSession)
        (m : List Msg), k ≠ 27 → step target s k = .cont s' m →
        s'.escape_counter = 3) := by
  refine ⟨?_, ?_, ?_⟩
  · intro target s keys
    induction keys generalizing s with
    | nil => exact fun _ h3 => ⟨rfl, h3⟩
    | cons k ks ih =>
      intro hmem h3
      have hk : k ≠ 27 := fun h => hmem (h ▸ List.mem_cons_self k ks)
      have hstep := step_nonesc target s k hk
      simp only [runKeys, hstep]
      exact ih _ (fun h => hmem (List.mem_cons_of_mem _ h)) rfl
  · intro target s n hn h3 hwc
    have hne1 : s.escape_counter - 1 ≠ 0 := by omega
    interval_cases n
    · refine ⟨rfl, ?_⟩
      rw [show List.replicate 0 27 = ([] : List Nat) from rfl]
      simpa [runKeys] using h3
    · have hstep := step_esc_cont target s hwc hne1
      rw [show List.replicate 1 27 = [27] from rfl]
      simp only [runKeys, hstep]
      refine ⟨by trivial, ?_⟩
      show s.escape_counter - 1 = 3 - (1 : Int)
      omega
    · have hstep := step_esc_cont target s hwc hne1
      rw [show List.replicate 2 27 = [27, 27] from rfl]
      simp only [runKeys, hstep]
      have hw1 : (⟨s.text ++ [chr 27], s.words_count,
          s.escape_counter - 1⟩ : EditorSession).words_count < target := hwc
      have he1 : (⟨s.text ++ [chr 27], s.words_count,
          s.escape_counter - 1⟩ : EditorSession).escape_counter - 1 ≠ 0 := by
        show s.escape_counter - 1 - 1 ≠ 0
        omega
      have hstep2 := step_esc_cont target _ hw1 he1
      simp only [runKeys, hstep2]
      refine ⟨by trivial, ?_⟩
      show s.escape_counter - 1 - 1 = 3 - (2 : Int)
      omega
  · intro target s k s' m hk hstep
    rw [step_nonesc _ _ _ hk] at hstep
    injection hstep with h1 h2
    rw [← h1]

/-- Witness for C3 at concrete inputs: two letters keep the counter at 3,
two escapes below target bring it to 1. -/
theorem escape_counter_dynamics_witness :
    (runKeys 20 initSession [104, 105]).1.escape_counter = 3
    ∧ (runKeys 20 initSession (List.replicate 2 27)).1.escape_counter = 3 - (2 : Int) :=
  ⟨(escape_counter_dynamics.1 20 initSession [104, 105] (by decide) rfl).2,
   (escape_counter_dynamics.2.1 20 initSession 2 (by omega) rfl (by decide)).2⟩

/-- Claim C4: with `target_words = 20`, feeding 21 spaces then ESC terminates on
that first ESC with `words_count = 42`; the returned content is exactly 21
space characters (length 21, no escape character), and the session had not
ended before the ESC. -/
theorem scenario_21_spaces_then_esc :
    Editor.input 20 (List.replicate 21 32 ++ [27]) =
      some { content := List.replicate 21 ' ', words_count := 42 }
    ∧ (runKeys 20 initSession (List.replicate 21 32)).2 = false
    ∧ (List.replicate 21 (' ' : Char)).length = 21
    ∧ chr 27 ∉ List.replicate 21 (' ' : Char) := by
  decide

/-- Claim C5: a processed keystroke that is not delete (127) and does not break
the loop appends its decoded character to the buffer — in particular a
non-terminating escape appends `chr 27` even though `Editor.print` never
echoes it — while the terminating escape appends nothing because the
`break` precedes the append. -/
theorem buffer_append_policy (target : Nat) (s : EditorSession) (k : Nat) :
    (∀ s' m, step target s k = .cont s' m →
        (k ≠ 127 → s'.text = s.text ++ [chr k]) ∧ (k = 127 → s'.text = s.text))
  ∧ (∀ s', step target s k = .done s' → s'.text = s.text)
  ∧ Editor.echoed 27 = none := by
  refine ⟨?_, ?_, rfl⟩
  · intro s' m h
    have ht := step_cont_text target s k s' m h
    constructor
    · intro h127
      rw [ht, if_neg h127]
    · intro h127
      rw [ht, if_pos h127]
  · intro s' h
    exact step_done_text target s k s' h

/-- Witness for C5 at a concrete input: the first escape press below
target appends the escape character to the empty buffer. -/
theorem buffer_append_policy_witness :
    ({ text := [chr 27], words_count := 0, escape_counter := 2 } : EditorSession).text
      = initSession.text ++ [chr 27]
    ∧ Editor.echoed 27 = none := by
  have h := buffer_append_policy 20 initSession 27
  exact ⟨(h.1 ⟨[chr 27], 0, 2⟩ [Msg.moreWords 20, Msg.pressEsc 2]
    (by decide)).1 (by decide), h.2.2⟩

/-- Claim C6 as stated is false: processing the delete keystroke (127) on a
one-character buffer leaves the buffer at length 1 instead of removing a
character, and the iteration continues normally. -/
theorem delete_removes_nothing_cx :
    (step 20 { text := ['a'], words_count := 0, escape_counter := 3 } 127).isDone = false
    ∧ (step 20 { text := ['a'], words_count := 0, escape_counter := 3 } 127).state.text = ['a']
    ∧ ¬((step 20 { text := ['a'], words_count := 0, escape_counter := 3 } 127).state.text.length
        = (['a'] : List Char).length - 1) := by
  decide

/-- Claim C6 (amended): the buffer is strictly append-only — the delete
keystroke (127) leaves it unchanged (its character is simply not
appended), every other continuing keystroke appends exactly one character,
and a breaking iteration changes nothing; no keystroke ever removes a
character. -/
theorem buffer_append_only (target : Nat) (s : EditorSession) :
    (∀ s' m, step target s 127 = .cont s' m → s'.text = s.text)
  ∧ (∀ k s' m, step target s k = .cont s' m →
        s'.text = s.text ∨ s'.text = s.text ++ [chr k])
  ∧ (∀ k s', step target s k = .done s' → s'.text = s.text) := by
  refine ⟨?_, ?_, ?_⟩
  · intro s' m h
    have ht := step_cont_text target s 127 s' m h
    simpa using ht
  · intro k s' m h
    have ht := step_cont_text target s k s' m h
    by_cases hk : k = 127
    · left
      rwa [if_pos hk] at ht
    · right
      rwa [if_neg hk] at ht
  · intro k s' h
    exact step_done_text target s k s' h

/-- Witness for C6 (amended) at a concrete input: delete on the buffer
`['a']` leaves it `['a']`. -/
theorem buffer_append_only_witness :
    (step 20 { text := ['a'], words_count := 0, escape_counter := 3 } 127).state.text
      = ['a'] := by
  have h : step 20 { text := ['a'], words_count := 0, escape_counter := 3 } 127
      = .cont { text := ['a'], words_count := 0, escape_counter := 3 } [] := by
    decide
  rw [h]
  exact (buffer_append_only 20 ⟨['a'], 0, 3⟩).1 ⟨['a'], 0, 3⟩ [] h

/-- Claim C7: menu navigation is cyclic over `{0, 1}` with a mathematically
correct modulo — LEFT from 0 yields 1 and the position is never negative;
LEFT-then-ENTER and RIGHT-then-ENTER from 0 both select "chat",
RIGHT-then-ENTER from 1 selects "note", and any key other than LEFT (260),
RIGHT (261) and ENTER (10) leaves the position unchanged. -/
theorem menu_navigation :
    Menu.navStep 0 260 = 1
  ∧ (∀ (p : Int) (k : Nat), 0 ≤ p → p ≤ 1 →
      0 ≤ Menu.navStep p k ∧ Menu.navStep p k ≤ 1)
  ∧ Menu.select 0 [260, 10] = some "chat"
  ∧ Menu.select 0 [261, 10] = some "chat"
  ∧ Menu.select 1 [261, 10] = some "note"
  ∧ (∀ (p : Int) (k : Nat), k ≠ 260 → k ≠ 261 → k ≠ 10 →
      Menu.navStep p k = p) := by
  refine ⟨by decide, ?_, by decide, by decide, by decide, ?_⟩
  · intro p k h0 h1
    unfold Menu.navStep
    split
    · have ha := Int.emod_nonneg (p + 1) (show (2 : Int) ≠ 0 by norm_num)
      have hb := Int.emod_lt_of_pos (p + 1) (show (0 : Int) < 2 by norm_num)
      omega
    · split
      · have ha := Int.emod_nonneg (p - 1) (show (2 : Int) ≠ 0 by norm_num)
        have hb := Int.emod_lt_of_pos (p - 1) (show (0 : Int) < 2 by norm_num)
        rw [abs_of_nonneg ha]
        omega
      · omega
  · intro p k h260 h261 h10
    unfold Menu.navStep
    rw [if_neg h261, if_neg h260]

/-- Witness for C7 at concrete inputs: LEFT from position 1 stays in
`{0, 1}`, and an unrelated key (code 99) leaves position 1 unchanged. -/
theorem menu_navigation_witness :
    (0 ≤ Menu.navStep 1 260 ∧ Menu.navStep 1 260 ≤ 1)
    ∧ Menu.navStep 1 99 = 1 :=
  ⟨menu_navigation.2.1 1 260 (by norm_num) (by norm_num),
   menu_navigation.2.2.2.2.2 1 99 (by decide) (by decide) (by decide)⟩

/-- Claim C8 concerns a code bug: `Animation.load` accepts `rounds` but its loop
runs `range(len(frames) * 2)`, so at `rounds = 3` it performs 16 frame
iterations, not the `rounds * 8 = 24` the claim requires; the glyph cycle
length is indeed 8, and only the default `rounds = 2` coincides. -/
theorem spinner_ignores_rounds :
    Animation.frames.length = 8
  ∧ Animation.loadIterations 3 = 16
  ∧ Animation.loadIterations 3 ≠ 3 * 8
  ∧ Animation.loadIterations 2 = 2 * 8 := by
  decide

/-- Claim C9 as stated is false on two counts: (i) on a terminating iteration
(ESC with `words_count = 21 > 20`) nothing at all is written to the
message pane; (ii) on a space keystroke taking `words_count` from 19 to 21,
the count exceeds the target after the iteration's updates yet the
affirmative line is not written, because the check reads the count before
the second (whitespace) increment. -/
theorem target_message_cx :
    ((step 20 { text := [], words_count := 21, escape_counter := 3 } 27).isDone = true
      ∧ (step 20 { text := [], words_count := 21, escape_counter := 3 } 27).msgs = [])
  ∧ ((step 20 { text := [], words_count := 19, escape_counter := 3 } 32).isDone = false
      ∧ (step 20 { text := [], words_count := 19, escape_counter := 3 } 32).state.words_count = 21
      ∧ Msg.targetReached ∉ (step 20 { text := [], words_count := 19, escape_counter := 3 } 32).msgs) := by
  decide

/-- Claim C9 (amended): on a continuing iteration the affirmative status line is
written exactly when `words_count > target_words` held right after the
space increment (before the whitespace increment), and then it is the last
write to the message pane of the iteration, after anything the escape
branch wrote; at `words_count = target_words` exactly it is not written; a
breaking iteration writes nothing to the message pane. -/
theorem target_message_policy (target : Nat) (s : EditorSession) (k : Nat) :
    (∀ s' m, step target s k = .cont s' m →
        (target < wcAfterSpace s k → m.getLast? = some Msg.targetReached)
        ∧ (Msg.targetReached ∈ m ↔ target < wcAfterSpace s k))
  ∧ (∀ s', step target s k = .done s' → (step target s k).msgs = []) := by
  refine ⟨?_, ?_⟩
  · intro s' m h
    by_cases hk : k = 27
    · subst hk
      by_cases hc : target ≤ s.words_count ∨ s.escape_counter - 1 = 0
      · rw [step_esc_done _ _ hc] at h
        cases h
      · push_neg at hc
        rw [step_esc_cont _ _ hc.1 hc.2] at h
        injection h with h1 h2
        rw [← h2]
        have hx : ¬ target < wcAfterSpace s 27 := by
          rw [wcAfterSpace_esc]
          omega
        constructor
        · intro hlt
          exact absurd hlt hx
        · simp [hx]
    · rw [step_nonesc _ _ _ hk] at h
      injection h with h1 h2
      rw [← h2]
      by_cases hlt : target < wcAfterSpace s k
      · simp [hlt]
      · simp [hlt]
  · intro s' h
    rw [h]
    rfl

/-- Witness for C9 (amended) at a concrete input: a letter keystroke with
the count already at 21 > 20 makes the affirmative line the last (and
only) message written. -/
theorem target_message_policy_witness :
    (step 20 { text := [], words_count := 21, escape_counter := 3 } 65).msgs.getLast?
      = some Msg.targetReached := by
  have h : step 20 { text := [], words_count := 21, escape_counter := 3 } 65
      = .cont { text := [chr 65], words_count := 21, escape_counter := 3 }
          [Msg.targetReached] := by
    decide
  rw [h]
  exact ((target_message_policy 20 ⟨[], 21, 3⟩ 65).1 ⟨[chr 65], 21, 3⟩
    [Msg.targetReached] h).1 (by decide)

/-- Bounds on `escape_counter` preserved by the loop, from any state with
the counter in `[1, 3]`. -/
theorem runKeys_ec_inv (target : Nat) (keys : List Nat) :
    ∀ s : EditorSession, 1 ≤ s.escape_counter → s.escape_counter ≤ 3 →
      0 ≤ (runKeys target s keys).1.escape_counter
      ∧ (runKeys target s keys).1.escape_counter ≤ 3
      ∧ ((runKeys target s keys).2 = false →
          1 ≤ (runKeys target s keys).1.escape_counter)
      ∧ ((runKeys target s keys).1.escape_counter = 0 →
          (runKeys target s keys).2 = true) := by
  induction keys with
  | nil =>
    intro s h1 h3
    refine ⟨?_, ?_, fun _ => ?_, fun h0 => ?_⟩
    · show (0 : Int) ≤ s.escape_counter
      omega
    · exact h3
    · exact h1
    · exact absurd (show s.escape_counter = 0 from h0) (by omega)
  | cons k ks ih =>
    intro s h1 h3
    by_cases hk : k = 27
    · subst hk
      by_cases hc : target ≤ s.words_count ∨ s.escape_counter - 1 = 0
      · have hstep := step_esc_done target s hc
        simp only [runKeys, hstep]
        refine ⟨?_, ?_, ?_, ?_⟩
        · show (0 : Int) ≤ s.escape_counter - 1
          omega
        · show s.escape_counter - 1 ≤ 3
          omega
        · intro hfalse
          cases hfalse
        · exact fun _ => trivial
      · push_neg at hc
        have hstep := step_esc_cont target s hc.1 hc.2
        simp only [runKeys, hstep]
        apply ih
        · show (1 : Int) ≤ s.escape_counter - 1
          have := hc.2
          omega
        · show s.escape_counter - 1 ≤ 3
          omega
    · have hstep := step_nonesc target s k hk
      simp only [runKeys, hstep]
      apply ih
      · show (1 : Int) ≤ 3
        norm_num
      · show (3 : Int) ≤ 3
        norm_num

/-- Claim C10: starting from the initial session, after any keystroke script the
`escape_counter` lies in `[0, 3]`; it is at least 1 whenever the loop is
still running (about to block on the next read), and it can be 0 only when
the session has terminated. -/
theorem escape_counter_invariant (target : Nat) (keys : List Nat) :
    0 ≤ (runKeys target initSession keys).1.escape_counter
  ∧ (runKeys target initSession keys).1.escape_counter ≤ 3
  ∧ ((runKeys target initSession keys).2 = false →
      1 ≤ (runKeys target initSession keys).1.escape_counter)
  ∧ ((runKeys target initSession keys).1.escape_counter = 0 →
      (runKeys target initSession keys).2 = true) :=
  runKeys_ec_inv target keys initSession (by decide) (by decide)

/-- Witness for C10 at a concrete input: after one non-terminating escape
the loop is still running, so the counter is at least 1. -/
theorem escape_counter_invariant_witness :
    1 ≤ (runKeys 20 initSession [27]).1.escape_counter :=
  (escape_counter_invariant 20 [27]).2.2.1 (by decide)

end Jotdown
